import Mathlib

/-!
Verification of the mongodb-test resident/alarm manager.

The development shallowly embeds the repository's core logic (src/main.rs and
src/utils.rs): the resident data model, the date-string handling of
`DateTimeStr`, the clear-alarm two-step transition of `test_clear_alarm`, the
insert-or-update fallback of `test_insert_or_update`, and the reporting
aggregation pipeline of `test_query`.  The document store is modelled as a
list of resident documents; store timestamps are modelled as signed counts of
milliseconds since the Unix epoch, exactly the representation of the store's
datetime type.
-/

set_option autoImplicit false

namespace MongoTest

/-- Historical (closed) alarm entry, embedding `struct Alarm` of src/main.rs. -/
structure Alarm where
  time : Int
  duration_sec : Nat
  message : String
  deriving DecidableEq

/-- Currently open alarm entry, embedding `struct ActiveAlarm` of src/main.rs. -/
structure ActiveAlarm where
  time : Int
  message : String
  deriving DecidableEq

/-- Resident document, embedding `struct Resident` of src/main.rs. -/
structure Resident where
  name : String
  birth : Int
  location : String
  resident_since : Int
  alarms : List Alarm
  active_alarms : List ActiveAlarm
  deriving DecidableEq

/-! ### RFC 3339 timestamp parsing

Embeds the store client's `DateTime::parse_rfc3339_str` for the uppercase
`YYYY-MM-DDTHH:MM:SS(.fff)?(Z|+HH:MM|-HH:MM)` forms, the only forms the
program ever constructs (it appends `T00:00:00Z`, `T23:59:59.999Z` or `Z`
itself).  A successful parse yields milliseconds since the epoch. -/

/-- Numeric value of a list of decimal digit characters. -/
def readNat (cs : List Char) : Nat :=
  cs.foldl (fun a c => a * 10 + (c.toNat - 48)) 0

/-- Reads exactly `n` decimal digits from the front of the character list. -/
def parseFixedNat (n : Nat) (cs : List Char) : Option (Nat × List Char) :=
  let ds := cs.take n
  if ds.length = n ∧ ds.all Char.isDigit = true then
    some (readNat ds, cs.drop n)
  else
    none

/-- Consumes one expected character. -/
def expectChar (c : Char) : List Char → Option (List Char)
  | [] => none
  | x :: xs => if x = c then some xs else none

/-- Optional fractional seconds: a dot followed by at least one digit; the
value is truncated to millisecond precision. -/
def parseFrac : List Char → Option (Nat × List Char)
  | '.' :: rest =>
      let ds := rest.takeWhile Char.isDigit
      if ds.isEmpty then none
      else some (readNat ((ds ++ ['0', '0', '0']).take 3), rest.dropWhile Char.isDigit)
  | cs => some (0, cs)

/-- UTC designator or numeric offset (in minutes east), which must end the
input. -/
def parseOffset : List Char → Option Int
  | ['Z'] => some 0
  | c :: rest =>
      if c = '+' || c = '-' then
        match parseFixedNat 2 rest with
        | some (h, rest1) =>
            match expectChar ':' rest1 with
            | some rest2 =>
                match parseFixedNat 2 rest2 with
                | some (m, []) =>
                    if h ≤ 23 ∧ m ≤ 59 then
                      some (if c = '+' then (h * 60 + m : Int) else -(h * 60 + m : Int))
                    else none
                | _ => none
            | none => none
        | none => none
      else none
  | [] => none

/-- Days since 1970-01-01 of a proleptic Gregorian calendar date
(the standard civil-from-days algorithm). -/
def civilToDays (y m d : Nat) : Int :=
  let yy : Int := (y : Int) - (if m ≤ 2 then 1 else 0)
  let era : Int := Int.fdiv yy 400
  let yoe : Int := yy - era * 400
  let mp : Int := (m : Int) + (if m ≤ 2 then 9 else -3)
  let doy : Int := Int.fdiv (153 * mp + 2) 5 + (d : Int) - 1
  let doe : Int := yoe * 365 + Int.fdiv yoe 4 - Int.fdiv yoe 100 + doy
  era * 146097 + doe - 719468

/-- Leap-year test of the Gregorian calendar. -/
def isLeap (y : Nat) : Bool :=
  (y % 4 == 0 && y % 100 != 0) || y % 400 == 0

/-- Number of days of month `m` in year `y`. -/
def daysInMonth (y m : Nat) : Nat :=
  if m = 2 then (if isLeap y then 29 else 28)
  else if m = 4 ∨ m = 6 ∨ m = 9 ∨ m = 11 then 30
  else 31

/-- Parses an RFC 3339 timestamp string into milliseconds since the epoch;
`none` on any malformed input. -/
def parseRfc3339 (s : String) : Option Int := do
  let cs := s.data
  let (y, cs) ← parseFixedNat 4 cs
  let cs ← expectChar '-' cs
  let (mo, cs) ← parseFixedNat 2 cs
  let cs ← expectChar '-' cs
  let (d, cs) ← parseFixedNat 2 cs
  let cs ← expectChar 'T' cs
  let (hh, cs) ← parseFixedNat 2 cs
  let cs ← expectChar ':' cs
  let (mi, cs) ← parseFixedNat 2 cs
  let cs ← expectChar ':' cs
  let (sec, cs) ← parseFixedNat 2 cs
  let (ms, cs) ← parseFrac cs
  let off ← parseOffset cs
  if 1 ≤ mo ∧ mo ≤ 12 ∧ 1 ≤ d ∧ d ≤ daysInMonth y mo ∧ hh ≤ 23 ∧ mi ≤ 59 ∧ sec ≤ 59 then
    pure (civilToDays y mo d * 86400000
      + ((hh * 3600 + mi * 60 + sec : Nat) : Int) * 1000 + (ms : Int) - off * 60000)
  else none

/-! ### Date-string normalization, from `impl From<DateTimeStr> for DateTime`
(src/utils.rs). -/

/-- Character membership test, as Rust's `str::contains(char)`. -/
def containsChar (s : String) (c : Char) : Bool :=
  s.data.any (fun x => x == c)

/-- Final-character test, as Rust's `str::ends_with(char)`. -/
def endsInChar (s : String) (c : Char) : Bool :=
  s.data.getLast? == some c

/-- String actually handed to the RFC 3339 parser by the conversion: a string
without `T` gets `T00:00:00Z` appended (date only); a string with `T` but no
trailing `Z` and no `+`/`-` anywhere gets `Z` appended (assume UTC); any
other string is parsed as is. -/
def strToParse (s : String) : String :=
  if !(containsChar s 'T') then s ++ "T00:00:00Z"
  else if !(endsInChar s 'Z') && !(containsChar s '+') && !(containsChar s '-') then s ++ "Z"
  else s

/-- Embeds `impl From<DateTimeStr> for DateTime` (src/utils.rs): the adjusted
string is parsed, and a parse failure yields the current time `now` instead
of an error (`unwrap_or_else(|_| DateTime::now())`). -/
def dateTimeFromStr (now : Int) (s : String) : Int :=
  (parseRfc3339 (strToParse s)).getD now

/-- Embeds `Resident::new` (src/main.rs): birth and residency-start strings go
through the `DateTimeStr` conversion; alarm lists start empty. -/
def Resident.new (now : Int) (nm birth location since : String) : Resident :=
  { name := nm
    birth := dateTimeFromStr now birth
    location := location
    resident_since := dateTimeFromStr now since
    alarms := []
    active_alarms := [] }

/-! ### Clear-alarm transition, from `test_clear_alarm` (src/main.rs). -/

/-- Models the unique-key lookup filter `doc! { name, birth }`. -/
def residentKey (nm : String) (birth : Int) (r : Resident) : Bool :=
  r.name == nm && r.birth == birth

/-- Outcome of a clear-alarm call: the cleared alarm's time, message and
computed duration, or one of the two reported not-found outcomes. -/
inductive CloseResult where
  | cleared (time : Int) (message : String) (duration : Nat)
  | residentNotFound
  | alarmNotFound
  deriving DecidableEq

/-- One resident's part of `test_clear_alarm`: the aggregation's `$filter`
selects the active entries whose time equals the requested start time; the
first element of that array supplies message and time; the duration is the
explicit one if given, otherwise `now` minus the open time in whole seconds
with a negative difference clamped to zero
(`checked_duration_since(..).unwrap_or_default().as_secs()`); the `$pull`
removes every active entry with that time and the `$push` appends a single
history entry. -/
def closeAlarmResident (r : Resident) (st : Int) (dur? : Option Nat) (now : Int) :
    Option (Resident × Int × String × Nat) :=
  match r.active_alarms.filter (fun a => a.time == st) with
  | [] => none
  | a :: _ =>
      let d := dur?.getD ((now - a.time).toNat / 1000)
      some ({ r with
                active_alarms := r.active_alarms.filter (fun x => !(x.time == a.time)),
                alarms := r.alarms ++ [⟨a.time, d, a.message⟩] },
            a.time, a.message, d)

/-- Walks the store for the first resident matching the key filter (the
aggregation cursor's first document) and rewrites that document in place. -/
def closeAlarmGo (nm : String) (birth st : Int) (dur? : Option Nat) (now : Int) :
    List Resident → CloseResult × List Resident
  | [] => (.residentNotFound, [])
  | r :: rest =>
      if residentKey nm birth r then
        match closeAlarmResident r st dur? now with
        | none => (.alarmNotFound, r :: rest)
        | some (r2, t, m, d) => (.cleared t m d, r2 :: rest)
      else
        let res := closeAlarmGo nm birth st dur? now rest
        (res.1, r :: res.2)

/-- Embeds `test_clear_alarm` (src/main.rs): locate the resident by
(name, birth); if none, report resident-not-found; if the filtered active
list is empty, report alarm-not-found; otherwise remove the matching active
entries and append one history entry. -/
def closeAlarm (store : List Resident) (nm : String) (birth st : Int)
    (dur? : Option Nat) (now : Int) : CloseResult × List Resident :=
  closeAlarmGo nm birth st dur? now store

/-! ### Insert-or-update, from `test_insert_or_update` (src/main.rs). -/

/-- Write-failure taxonomy of the store: the duplicate-key error (code 11000)
versus any other write failure. -/
inductive WriteErr where
  | duplicateKey
  | other (msg : String)
  deriving DecidableEq

/-- Insert against the unique (name, birth) index: rejected with the
duplicate-key error exactly when a document with the same key exists. -/
def insertOne (store : List Resident) (p : Resident) : Except WriteErr (List Resident) :=
  if store.any (residentKey p.name p.birth) then .error .duplicateKey
  else .ok (store ++ [p])

/-- `update_one` with the unique-index filter: rewrites the first matching
document only. -/
def updateFirstByKey (nm : String) (birth : Int) (upd : Resident → Resident) :
    List Resident → List Resident
  | [] => []
  | r :: rest =>
      if residentKey nm birth r then upd r :: rest
      else r :: updateFirstByKey nm birth upd rest

/-- Models `Resident::update_data` (src/main.rs): a `$set` of location and
resident_since only, leaving identity and alarm lists untouched. -/
def applyUpdateData (p x : Resident) : Resident :=
  { x with location := p.location, resident_since := p.resident_since }

/-- Outcome of the insert-or-update operation. -/
inductive UpsertOutcome where
  | inserted
  | updated
  | failed (e : WriteErr)
  deriving DecidableEq

/-- Core of `test_insert_or_update`, parameterized by the insert attempt's
result: only the duplicate-key write error (code 11000) is converted into an
update of location/resident_since; any other failure is reported and no
update is issued. -/
def insertOrUpdateFrom (res : Except WriteErr (List Resident)) (store : List Resident)
    (p : Resident) : UpsertOutcome × List Resident :=
  match res with
  | .ok s => (.inserted, s)
  | .error .duplicateKey =>
      (.updated, updateFirstByKey p.name p.birth (applyUpdateData p) store)
  | .error e => (.failed e, store)

/-- Embeds `test_insert_or_update` (src/main.rs). -/
def insertOrUpdate (store : List Resident) (p : Resident) : UpsertOutcome × List Resident :=
  insertOrUpdateFrom (insertOne store p) store p

/-! ### Reporting query, from `test_query` (src/main.rs). -/

/-- Checks whether the first character list occurs at the head of the second. -/
def leadsWith : List Char → List Char → Bool
  | [], _ => true
  | _ :: _, [] => false
  | a :: as, b :: bs => a == b && leadsWith as bs

/-- Checks whether the first character list occurs anywhere inside the
second. -/
def occursIn (needle : List Char) : List Char → Bool
  | [] => needle.isEmpty
  | hay@(_ :: rest) => leadsWith needle hay || occursIn needle rest

/-- Lowercases every character of a string. -/
def lowerStr (s : String) : String :=
  String.mk (s.data.map Char.toLower)

/-- Models the store's `$regex` operator with the `i` (case-insensitive)
option, for the literal (metacharacter-free) patterns the claims exercise: an
unanchored, case-insensitive substring search. -/
def regexMatchI (pat s : String) : Bool :=
  occursIn (lowerStr pat).data (lowerStr s).data

/-- Conditions appearing in the `$match` filter document built by
`test_query`. -/
inductive Clause where
  | nameRegexI (pat : String)
  | locationRegexI (pat : String)
  | orC (a b : Clause)
  | activeFirstExists
  | filteredSizePos

/-- Filter document: an ordered key-value map, as the store's document type. -/
abbrev FilterDoc := List (String × Clause)

/-- Document insertion: replaces the value of an existing key, appends a new
key at the end — the semantics of the store document type's `insert`, on
which `extend` is built. -/
def docInsert (d : FilterDoc) (k : String) (v : Clause) : FilterDoc :=
  if d.any (fun kv => kv.1 == k) then
    d.map (fun kv => if kv.1 == k then (k, v) else kv)
  else d ++ [(k, v)]

/-- Document `extend`: inserts every pair of the second document into the
first, replacing values of keys already present. -/
def docExtend (d e : FilterDoc) : FilterDoc :=
  e.foldl (fun acc kv => docInsert acc kv.1 kv.2) d

/-- Pattern part of the `$match` filter, following the branch structure of
`test_query`: both patterns given yields a single `$or` of the two regex
conditions; one pattern yields a single keyed regex condition; none yields
the empty document. -/
def patternFilter (name location : Option String) : FilterDoc :=
  match name, location with
  | some np, some lp => [("$or", .orC (.nameRegexI np) (.locationRegexI lp))]
  | some np, none => [("name", .nameRegexI np)]
  | none, some lp => [("location", .locationRegexI lp)]
  | none, none => []

/-- Inclusion condition appended by `filter.extend`: the resident has a first
active alarm (`active_alarms.0 $exists`) or a nonempty filtered alarm list
(`$expr $gt [$size $filteredAlarms, 0]`). -/
def inclusionOr : Clause :=
  .orC .activeFirstExists .filteredSizePos

/-- Filter document actually passed to `$match`: the pattern part extended
with `{"$or": inclusionOr}`. -/
def queryFilter (name location : Option String) : FilterDoc :=
  docExtend (patternFilter name location) [("$or", inclusionOr)]

/-- Evaluates one filter condition against a resident and its
`filteredAlarms` array. -/
def evalClause (r : Resident) (filtered : List Alarm) : Clause → Bool
  | .nameRegexI p => regexMatchI p r.name
  | .locationRegexI p => regexMatchI p r.location
  | .orC a b => evalClause r filtered a || evalClause r filtered b
  | .activeFirstExists => !r.active_alarms.isEmpty
  | .filteredSizePos => decide (filtered.length > 0)

/-- A document matches a filter when every keyed condition holds. -/
def matchDoc (d : FilterDoc) (r : Resident) (filtered : List Alarm) : Bool :=
  d.all (fun kv => evalClause r filtered kv.2)

/-- Window test of the `$addFields` stage's `$filter` condition:
`$gte` the lower bound and `$lte` the upper bound, both inclusive. -/
def inWindow (f t x : Int) : Bool :=
  decide (f ≤ x) && decide (x ≤ t)

/-- The `filteredAlarms` array added by the `$addFields` stage: the history
alarms whose open time lies in the window. -/
def filteredAlarms (f t : Int) (r : Resident) : List Alarm :=
  r.alarms.filter (fun a => inWindow f t a.time)

/-- Row produced by the `$project` stage, embedding the projected fields of
`test_query`. -/
structure ReportRow where
  name : String
  location : String
  alarms_count : Nat
  alarms_avg_duration : Option ℚ
  alarms_min_time : Option Int
  alarms_max_time : Option Int
  active_alarms_count : Nat
  deriving DecidableEq

/-- The store's `$avg` over an array of numbers: null on the empty array,
otherwise the exact arithmetic mean (sum of the entries over their count). -/
def listAvgQ (l : List Nat) : Option ℚ :=
  match l with
  | [] => none
  | _ => some ((l.sum : ℚ) / (l.length : ℚ))

/-- The store's `$min` over an array of numbers: null on the empty array. -/
def listMinQ : List Int → Option Int
  | [] => none
  | x :: xs =>
      match listMinQ xs with
      | none => some x
      | some m => some (min x m)

/-- The store's `$max` over an array of numbers: null on the empty array. -/
def listMaxQ : List Int → Option Int
  | [] => none
  | x :: xs =>
      match listMaxQ xs with
      | none => some x
      | some m => some (max x m)

/-- The `$project` stage of `test_query`: historical-alarm count, average
duration, minimum and maximum open time over the filtered array, and the
date-unfiltered active-alarm count. -/
def projectRow (f t : Int) (r : Resident) : ReportRow :=
  let fa := filteredAlarms f t r
  { name := r.name
    location := r.location
    alarms_count := fa.length
    alarms_avg_duration := listAvgQ (fa.map (fun a => a.duration_sec))
    alarms_min_time := listMinQ (fa.map (fun a => a.time))
    alarms_max_time := listMaxQ (fa.map (fun a => a.time))
    active_alarms_count := r.active_alarms.length }

/-- Stable insertion for the `$sort {location: 1}` stage. -/
def insertByLoc (row : ReportRow) : List ReportRow → List ReportRow
  | [] => [row]
  | x :: xs =>
      if row.location < x.location then row :: x :: xs
      else x :: insertByLoc row xs

/-- Ascending sort by location, the `$sort` stage. -/
def sortByLocation (l : List ReportRow) : List ReportRow :=
  l.foldr insertByLoc []

/-- Rows of the aggregation pipeline for parsed window bounds: `$addFields`
(the filtered array), `$match` (the combined filter), `$project` and
`$sort`. -/
def reportRows (store : List Resident) (f t : Int) (name location : Option String) :
    List ReportRow :=
  sortByLocation
    ((store.filter
        (fun r => matchDoc (queryFilter name location) r (filteredAlarms f t r))).map
      (projectRow f t))

/-- Embeds `test_query` (src/main.rs): the window bounds are the parses of
`from_date ++ "T00:00:00Z"` and `to_date ++ "T23:59:59.999Z"`; either parse
failure aborts the query (the `?` operator) before the store is consulted. -/
def runReport (store : List Resident) (from_date to_date : String)
    (name location : Option String) : Option (List ReportRow) :=
  match parseRfc3339 (from_date ++ "T00:00:00Z"),
        parseRfc3339 (to_date ++ "T23:59:59.999Z") with
  | some f, some t => some (reportRows store f t name location)
  | _, _ => none

/-! ### Concrete fixtures used by witnesses and counterexamples. -/

/-- Resident with one active alarm and no history, located in RoomA. -/
def annResident : Resident :=
  { name := "Ann", birth := 0, location := "RoomA", resident_since := 0,
    alarms := [], active_alarms := [⟨1000, "smoke"⟩] }

/-- Resident with one active alarm, matching neither demo pattern. -/
def zedResident : Resident :=
  { name := "Zed", birth := 0, location := "RoomZ", resident_since := 0,
    alarms := [], active_alarms := [⟨1000, "fire"⟩] }

/-- One-resident store around `annResident`. -/
def annStore : List Resident := [annResident]

/-- Resident whose active list holds two alarms sharing open time 500. -/
def dupResident : Resident :=
  { name := "Ann", birth := 0, location := "RoomA", resident_since := 0,
    alarms := [], active_alarms := [⟨500, "first"⟩, ⟨500, "second"⟩, ⟨900, "other"⟩] }

/-- Resident with three in-range historical alarms of durations 10, 20, 30. -/
def aggResident : Resident :=
  { name := "Ann", birth := 0, location := "RoomA", resident_since := 0,
    alarms := [⟨100, 10, "a"⟩, ⟨200, 20, "b"⟩, ⟨300, 30, "c"⟩], active_alarms := [] }

/-! ### Claim C1 -/

/-- C1: the claim says the report's pattern filter is the inclusive OR of the
name and location patterns whenever both are supplied, so that only residents
matching at least one pattern appear.  The code builds that `$or` document
but then overwrites its sole key with `filter.extend`, whose inclusion
condition also uses the key `$or` and document `extend` replaces the value of
an existing key: when both patterns are supplied the pattern filter is
dropped entirely.  A resident matching neither pattern ("Zed" in "RoomZ"
against patterns "ann" and "rooma") still appears in the result. -/
theorem extend_overwrites_pattern_or :
    regexMatchI "ann" "Zed" = false ∧
    regexMatchI "rooma" "RoomZ" = false ∧
    queryFilter (some "ann") (some "rooma") = [("$or", inclusionOr)] ∧
    (runReport [zedResident] "2024-01-01" "2024-12-31" (some "ann") (some "rooma")).map
        (fun rows => rows.map (fun row => row.name)) = some ["Zed"] := by
  refine ⟨rfl, rfl, rfl, ?_⟩
  decide

/-! ### Claim C2 -/

/-- C2 counterexample: the unparseable birth string "notadate" does not make
the insert operation fail before store access; the `DateTimeStr` conversion
substitutes the current time (777 here) and the insert writes a document
whose birth is that substituted value. -/
theorem malformed_date_written_to_store :
    parseRfc3339 (strToParse "notadate") = none ∧
    dateTimeFromStr 777 "notadate" = 777 ∧
    insertOrUpdate [] (Resident.new 777 "Ann" "notadate" "RoomA" "2020-01-01") =
      (UpsertOutcome.inserted,
       [{ name := "Ann", birth := 777, location := "RoomA",
          resident_since := 1577836800000, alarms := [], active_alarms := [] }]) := by
  refine ⟨rfl, rfl, ?_⟩
  decide

/-- C2 (amended): only the report's date-range strings abort the operation
before any store access when they fail to parse (the query result is `none`
for every store); a date string that fails to parse in the `DateTimeStr`
conversion never fails the operation — the current time is substituted and
the operation proceeds. -/
theorem malformed_date_semantics (store : List Resident) (q td s : String)
    (n l : Option String) (now : Int)
    (hq : parseRfc3339 (q ++ "T00:00:00Z") = none)
    (hs : parseRfc3339 (strToParse s) = none) :
    runReport store q td n l = none ∧ dateTimeFromStr now s = now := by
  constructor
  · unfold runReport
    rw [hq]
  · unfold dateTimeFromStr
    rw [hs]
    rfl

/-- Witness for the amended C2 theorem at the concrete input "bad". -/
theorem malformed_date_semantics_witness :
    runReport [] "bad" "2024-01-01" none none = none ∧ dateTimeFromStr 5 "bad" = 5 :=
  malformed_date_semantics [] "bad" "2024-01-01" "bad" none none 5 (by decide) (by decide)

/-! ### Claim C3 -/

/-- Duration computed by a successful per-resident close: the explicit
duration when supplied, otherwise the clamped elapsed whole seconds. -/
theorem closeAlarmResident_duration (r r2 : Resident) (st now t : Int) (m : String)
    (d : Nat) (dur? : Option Nat)
    (h : closeAlarmResident r st dur? now = some (r2, t, m, d)) :
    d = dur?.getD ((now - t).toNat / 1000) := by
  unfold closeAlarmResident at h
  cases hf : r.active_alarms.filter (fun a => a.time == st) with
  | nil => rw [hf] at h; exact absurd h (by simp)
  | cons a rest =>
      rw [hf] at h
      simp only [Option.some.injEq, Prod.mk.injEq] at h
      obtain ⟨-, ht, -, hd⟩ := h
      rw [ht] at hd
      exact hd.symm

/-- A cleared outcome of the store walk carries the duration rule. -/
theorem closeAlarmGo_cleared_duration (nm : String) (birth st now t : Int)
    (dur? : Option Nat) (store store2 : List Resident) (m : String) (d : Nat)
    (h : closeAlarmGo nm birth st dur? now store = (.cleared t m d, store2)) :
    d = dur?.getD ((now - t).toNat / 1000) := by
  induction store generalizing store2 with
  | nil => exact absurd h (by simp [closeAlarmGo])
  | cons r rest ih =>
      unfold closeAlarmGo at h
      by_cases hk : residentKey nm birth r
      · rw [if_pos hk] at h
        cases hc : closeAlarmResident r st dur? now with
        | none => rw [hc] at h; exact absurd h (by simp)
        | some val =>
            obtain ⟨r2, t2, m2, d2⟩ := val
            rw [hc] at h
            simp only [Prod.mk.injEq, CloseResult.cleared.injEq] at h
            obtain ⟨⟨ht2, -, hd2⟩, -⟩ := h
            rw [← ht2, ← hd2]
            exact closeAlarmResident_duration r r2 st now t2 m2 d2 dur? hc
      · rw [if_neg hk] at h
        have h1 : (closeAlarmGo nm birth st dur? now rest).1 = CloseResult.cleared t m d := by
          have h2 := congrArg Prod.fst h
          simpa using h2
        refine ih (closeAlarmGo nm birth st dur? now rest).2 ?_
        rw [← h1]

/-- C3: when a close of an active alarm succeeds, an explicitly supplied
duration is used exactly, regardless of `now`; otherwise the duration is
`now` minus the alarm's open time in whole seconds, clamped to zero when the
difference is negative, so it is never negative. -/
theorem closeAlarm_duration_rule (store store2 : List Resident) (nm : String)
    (birth st now t : Int) (m : String) (d : Nat) (dur? : Option Nat)
    (h : closeAlarm store nm birth st dur? now = (.cleared t m d, store2)) :
    (∀ x, dur? = some x → d = x) ∧
    (dur? = none →
      d = (now - t).toNat / 1000 ∧
      (now < t → d = 0) ∧
      (t ≤ now → (d : Int) = (now - t) / 1000)) := by
  have hd := closeAlarmGo_cleared_duration nm birth st now t dur? store store2 m d h
  constructor
  · rintro x rfl
    simpa using hd
  · rintro rfl
    simp only [Option.getD_none] at hd
    refine ⟨hd, ?_, ?_⟩
    · intro hlt
      have h0 : (now - t).toNat = 0 := Int.toNat_eq_zero.mpr (by omega)
      rw [hd, h0, Nat.zero_div]
    · intro hle
      rw [hd, Int.ofNat_tdiv, Int.toNat_of_nonneg (by omega),
        Int.tdiv_eq_ediv (by omega) (by norm_num)]
      norm_num

/-- Store state after the witness close of `annStore` with no explicit
duration at `now = 5999`. -/
def annStoreAfter : List Resident :=
  [{ name := "Ann", birth := 0, location := "RoomA", resident_since := 0,
     alarms := [⟨1000, 4, "smoke"⟩], active_alarms := [] }]

/-- Witness for C3: closing the alarm opened at 1000 with no explicit
duration at `now = 5999` yields the clamped whole-second duration 4. -/
theorem closeAlarm_duration_rule_witness :
    (∀ x, (none : Option Nat) = some x → 4 = x) ∧
    ((none : Option Nat) = none →
      4 = ((5999 : Int) - 1000).toNat / 1000 ∧
      ((5999 : Int) < 1000 → (4 : Nat) = 0) ∧
      ((1000 : Int) ≤ 5999 → ((4 : Nat) : Int) = ((5999 : Int) - 1000) / 1000)) :=
  closeAlarm_duration_rule annStore annStoreAfter "Ann" 0 1000 5999 1000 "smoke" 4 none
    (by decide)

/-! ### Claim C4 -/

/-- Walking the store past one non-matching resident leaves it in place. -/
theorem closeAlarmGo_cons_skip (nm : String) (birth st now : Int) (dur? : Option Nat)
    (x : Resident) (l : List Resident) (hx : residentKey nm birth x = false) :
    closeAlarmGo nm birth st dur? now (x :: l) =
      ((closeAlarmGo nm birth st dur? now l).1,
       x :: (closeAlarmGo nm birth st dur? now l).2) := by
  conv_lhs => unfold closeAlarmGo
  rw [if_neg (by simp [hx])]

/-- Walking the store past a prefix of non-matching residents leaves the
prefix in place and delegates to the tail. -/
theorem closeAlarmGo_skip (nm : String) (birth st now : Int) (dur? : Option Nat)
    (pre tail : List Resident)
    (hpre : ∀ x ∈ pre, residentKey nm birth x = false) :
    closeAlarmGo nm birth st dur? now (pre ++ tail) =
      ((closeAlarmGo nm birth st dur? now tail).1,
       pre ++ (closeAlarmGo nm birth st dur? now tail).2) := by
  induction pre with
  | nil => simp
  | cons x xs ih =>
      have hx : residentKey nm birth x = false := hpre x (by simp)
      have hxs : ∀ y ∈ xs, residentKey nm birth y = false := fun y hy => hpre y (by simp [hy])
      show closeAlarmGo nm birth st dur? now (x :: (xs ++ tail)) = _
      rw [closeAlarmGo_cons_skip nm birth st now dur? x (xs ++ tail) hx, ih hxs]
      rfl

/-- A resident with no active entry at the requested time yields no
per-resident close. -/
theorem closeAlarmResident_none (r : Resident) (st : Int) (dur? : Option Nat) (now : Int)
    (h : ∀ a ∈ r.active_alarms, (a.time == st) = false) :
    closeAlarmResident r st dur? now = none := by
  unfold closeAlarmResident
  rw [List.filter_eq_nil_iff.mpr (by intro a ha; simp [h a ha])]

/-- Structure of a successful per-resident close: identity fields preserved,
the cleared time is the requested time, and the new active list drops every
entry with that time. -/
theorem closeAlarmResident_inv (r r2 : Resident) (st now t : Int) (m : String) (d : Nat)
    (dur? : Option Nat) (h : closeAlarmResident r st dur? now = some (r2, t, m, d)) :
    r2.name = r.name ∧ r2.birth = r.birth ∧ t = st ∧
    r2.active_alarms = r.active_alarms.filter (fun x => !(x.time == t)) := by
  unfold closeAlarmResident at h
  cases hf : r.active_alarms.filter (fun a => a.time == st) with
  | nil => rw [hf] at h; exact absurd h (by simp)
  | cons a rest =>
      rw [hf] at h
      simp only [Option.some.injEq, Prod.mk.injEq] at h
      obtain ⟨hr2, ht, hm, hd⟩ := h
      have ha : a ∈ r.active_alarms.filter (fun a => a.time == st) := by
        rw [hf]; exact List.mem_cons_self a rest
      have hat : a.time = st := by
        have h2 := (List.mem_filter.mp ha).2
        simpa using h2
      refine ⟨?_, ?_, ?_, ?_⟩
      · rw [← hr2]
      · rw [← hr2]
      · rw [← ht]; exact hat
      · rw [← hr2, ← ht]

/-- Inversion of a cleared store walk: the store splits into a non-matching
prefix, the first matching resident, and the rest; the per-resident close
succeeded on that resident; the new store replaces it in place. -/
theorem closeAlarmGo_cleared_inv (nm : String) (birth st now : Int) (dur? : Option Nat)
    (store store2 : List Resident) (t : Int) (m : String) (d : Nat)
    (h : closeAlarmGo nm birth st dur? now store = (.cleared t m d, store2)) :
    ∃ pre r post r2,
      store = pre ++ r :: post ∧
      (∀ x ∈ pre, residentKey nm birth x = false) ∧
      residentKey nm birth r = true ∧
      closeAlarmResident r st dur? now = some (r2, t, m, d) ∧
      store2 = pre ++ r2 :: post := by
  induction store generalizing store2 with
  | nil => exact absurd h (by simp [closeAlarmGo])
  | cons r rest ih =>
      unfold closeAlarmGo at h
      by_cases hk : residentKey nm birth r
      · rw [if_pos hk] at h
        cases hc : closeAlarmResident r st dur? now with
        | none => rw [hc] at h; exact absurd h (by simp)
        | some val =>
            obtain ⟨r2, t2, m2, d2⟩ := val
            rw [hc] at h
            simp only [Prod.mk.injEq, CloseResult.cleared.injEq] at h
            obtain ⟨⟨ht, hm, hd⟩, hs⟩ := h
            refine ⟨[], r, rest, r2, rfl, by simp, hk, ?_, by rw [← hs]; rfl⟩
            rw [hc, ht, hm, hd]
      · rw [if_neg hk] at h
        have h1 : (closeAlarmGo nm birth st dur? now rest).1 = CloseResult.cleared t m d := by
          have h2 := congrArg Prod.fst h
          simpa using h2
        have h3 : r :: (closeAlarmGo nm birth st dur? now rest).2 = store2 := by
          have h2 := congrArg Prod.snd h
          simpa using h2
        obtain ⟨pre, rr, post, r2, hsplit, hpre, hkey, hres, hstore⟩ :=
          ih (closeAlarmGo nm birth st dur? now rest).2 (by rw [← h1])
        refine ⟨r :: pre, rr, post, r2, by rw [hsplit]; rfl, ?_, hkey, hres,
          by rw [← h3, hstore]; rfl⟩
        intro x hx
        rcases List.mem_cons.mp hx with h4 | h4
        · rw [h4]; simpa using hk
        · exact hpre x h4

/-- C4: a close with no matching resident reports resident-not-found with the
store unchanged; a close whose first matching resident has no active entry at
the given open time reports alarm-not-found with the store unchanged; and
after a successful close at some open time, a second close at the same open
time reports alarm-not-found (the entry has moved out of the active list)
with the store again unchanged. -/
theorem closeAlarm_error_outcomes (store : List Resident) (nm : String)
    (birth st now : Int) (dur? : Option Nat) :
    ((∀ r ∈ store, residentKey nm birth r = false) →
        closeAlarm store nm birth st dur? now = (.residentNotFound, store)) ∧
    (∀ pre r post, store = pre ++ r :: post →
        (∀ x ∈ pre, residentKey nm birth x = false) →
        residentKey nm birth r = true →
        (∀ a ∈ r.active_alarms, (a.time == st) = false) →
        closeAlarm store nm birth st dur? now = (.alarmNotFound, store)) ∧
    (∀ t m d store2, closeAlarm store nm birth st dur? now = (.cleared t m d, store2) →
        ∀ dur2 now2, closeAlarm store2 nm birth st dur2 now2 = (.alarmNotFound, store2)) := by
  refine ⟨?_, ?_, ?_⟩
  · intro hall
    have h := closeAlarmGo_skip nm birth st now dur? store [] hall
    rw [List.append_nil] at h
    simpa [closeAlarm, closeAlarmGo] using h
  · intro pre r post hsplit hpre hkey hno
    subst hsplit
    unfold closeAlarm
    rw [closeAlarmGo_skip nm birth st now dur? pre (r :: post) hpre]
    have hgo : closeAlarmGo nm birth st dur? now (r :: post) = (.alarmNotFound, r :: post) := by
      unfold closeAlarmGo
      rw [if_pos hkey, closeAlarmResident_none r st dur? now hno]
    rw [hgo]
  · intro t m d store2 h dur2 now2
    obtain ⟨pre, r, post, r2, hsplit, hpre, hkey, hres, hstore2⟩ :=
      closeAlarmGo_cleared_inv nm birth st now dur? store store2 t m d h
    obtain ⟨hname, hbirth, hts, hact⟩ := closeAlarmResident_inv r r2 st now t m d dur? hres
    have hkey2 : residentKey nm birth r2 = true := by
      unfold residentKey at hkey ⊢
      rw [hname, hbirth]
      exact hkey
    have hno : ∀ a ∈ r2.active_alarms, (a.time == st) = false := by
      intro a ha
      rw [hact] at ha
      have h2 := (List.mem_filter.mp ha).2
      rw [← hts]
      simpa using h2
    subst hstore2
    unfold closeAlarm
    rw [closeAlarmGo_skip nm birth st now2 dur2 pre (r2 :: post) hpre]
    have hgo : closeAlarmGo nm birth st dur2 now2 (r2 :: post) = (.alarmNotFound, r2 :: post) := by
      unfold closeAlarmGo
      rw [if_pos hkey2, closeAlarmResident_none r2 st dur2 now2 hno]
    rw [hgo]

/-- Store state after closing annStore's alarm with `now = 0` (clamped
duration 0). -/
def annStoreAfterZero : List Resident :=
  [{ name := "Ann", birth := 0, location := "RoomA", resident_since := 0,
     alarms := [⟨1000, 0, "smoke"⟩], active_alarms := [] }]

/-- Witness for C4 at concrete stores: unknown resident, unknown alarm time,
and a double close. -/
theorem closeAlarm_error_outcomes_witness :
    closeAlarm annStore "Bob" 0 1000 none 0 = (.residentNotFound, annStore) ∧
    closeAlarm annStore "Ann" 0 2000 none 0 = (.alarmNotFound, annStore) ∧
    closeAlarm annStoreAfterZero "Ann" 0 1000 none 7 = (.alarmNotFound, annStoreAfterZero) :=
  ⟨(closeAlarm_error_outcomes annStore "Bob" 0 1000 0 none).1 (by decide),
   (closeAlarm_error_outcomes annStore "Ann" 0 2000 0 none).2.1 [] annResident []
     (by decide) (by decide) (by decide) (by decide),
   (closeAlarm_error_outcomes annStore "Ann" 0 1000 0 none).2.2 1000 "smoke" 0
     annStoreAfterZero (by decide) none 7⟩

/-! ### Claim C5 -/

/-- Insertion into the sorted row list preserves members. -/
theorem mem_insertByLoc (x row : ReportRow) (l : List ReportRow) :
    x ∈ insertByLoc row l ↔ x = row ∨ x ∈ l := by
  induction l with
  | nil => simp [insertByLoc]
  | cons y ys ih =>
      by_cases h : row.location < y.location
      · rw [insertByLoc, if_pos h]
        simp
      · rw [insertByLoc, if_neg h, List.mem_cons, ih, List.mem_cons]
        tauto

/-- Sorting the rows by location preserves members. -/
theorem mem_sortByLocation (x : ReportRow) (l : List ReportRow) :
    x ∈ sortByLocation l ↔ x ∈ l := by
  induction l with
  | nil => simp [sortByLocation]
  | cons y ys ih =>
      show x ∈ insertByLoc y (sortByLocation ys) ↔ _
      rw [mem_insertByLoc]
      simp [ih]

/-- The no-pattern inclusion filter holds exactly when the resident has a
first active alarm or a nonempty filtered history. -/
theorem matchDoc_no_patterns (f t : Int) (r : Resident) :
    (matchDoc (queryFilter none none) r (filteredAlarms f t r) = true ↔
      r.active_alarms ≠ [] ∨ ∃ a ∈ r.alarms, f ≤ a.time ∧ a.time ≤ t) := by
  show (evalClause r (filteredAlarms f t r) inclusionOr && true) = true ↔ _
  simp only [Bool.and_true, inclusionOr, evalClause, Bool.or_eq_true,
    Bool.not_eq_true', List.isEmpty_eq_false_iff_exists_mem, decide_eq_true_eq]
  constructor
  · rintro (⟨a, ha⟩ | hlen)
    · exact Or.inl (List.ne_nil_of_mem ha)
    · refine Or.inr ?_
      have hne : filteredAlarms f t r ≠ [] := by
        intro h0
        rw [h0] at hlen
        simp at hlen
      obtain ⟨a, ha⟩ := List.exists_mem_of_ne_nil _ hne
      have h2 := List.mem_filter.mp ha
      refine ⟨a, h2.1, ?_⟩
      have h3 := h2.2
      simpa [inWindow] using h3
  · rintro (hact | ⟨a, ha, hw⟩)
    · exact Or.inl (List.exists_mem_of_ne_nil _ hact)
    · refine Or.inr ?_
      have ha2 : a ∈ filteredAlarms f t r := by
        refine List.mem_filter.mpr ⟨ha, ?_⟩
        simpa [inWindow] using hw
      exact List.length_pos.mpr (List.ne_nil_of_mem ha2)

/-- C5: for a report without pattern filters, a resident passes the `$match`
stage exactly when it has at least one active alarm or at least one
historical alarm inside the window; every such resident's row is in the
output, and a resident with no active alarm and only out-of-window history is
not in the matched set. -/
theorem report_inclusion_criteria (store : List Resident) (fd td : String) (f t : Int)
    (rows : List ReportRow) (r : Resident)
    (hf : parseRfc3339 (fd ++ "T00:00:00Z") = some f)
    (ht : parseRfc3339 (td ++ "T23:59:59.999Z") = some t)
    (hrun : runReport store fd td none none = some rows) :
    (matchDoc (queryFilter none none) r (filteredAlarms f t r) = true ↔
        r.active_alarms ≠ [] ∨ ∃ a ∈ r.alarms, f ≤ a.time ∧ a.time ≤ t) ∧
    (r ∈ store → (r.active_alarms ≠ [] ∨ ∃ a ∈ r.alarms, f ≤ a.time ∧ a.time ≤ t) →
        projectRow f t r ∈ rows) ∧
    (r.active_alarms = [] → (∀ a ∈ r.alarms, ¬(f ≤ a.time ∧ a.time ≤ t)) →
        r ∉ store.filter
          (fun x => matchDoc (queryFilter none none) x (filteredAlarms f t x))) := by
  have hrows : rows = reportRows store f t none none := by
    unfold runReport at hrun
    rw [hf, ht] at hrun
    exact (Option.some.injEq _ _ ▸ hrun :).symm
  refine ⟨matchDoc_no_patterns f t r, ?_, ?_⟩
  · intro hmem hincl
    rw [hrows]
    unfold reportRows
    rw [mem_sortByLocation]
    refine List.mem_map_of_mem _ ?_
    exact List.mem_filter.mpr ⟨hmem, (matchDoc_no_patterns f t r).mpr hincl⟩
  · intro hact hout hmem
    have h2 := (List.mem_filter.mp hmem).2
    rcases (matchDoc_no_patterns f t r).mp h2 with h3 | ⟨a, ha, hw⟩
    · exact h3 hact
    · exact hout a ha hw

/-- Rows of the witness report over `annStore`. -/
def annRows : List ReportRow :=
  reportRows annStore 1704067200000 1735689599999 none none

/-- Witness for C5: the resident with one active alarm and empty history
appears in the report over the 2024 date range. -/
theorem report_inclusion_criteria_witness :
    projectRow 1704067200000 1735689599999 annResident ∈ annRows :=
  (report_inclusion_criteria annStore "2024-01-01" "2024-12-31"
      1704067200000 1735689599999 annRows annResident
      (by decide) (by decide) (by decide)).2.1
    (by decide) (Or.inl (by decide))

/-! ### Claim C6 -/

/-- C6: the report's historical-alarm window runs from the parse of
`fromDate ++ "T00:00:00Z"` (start of the from-day, UTC) to the parse of
`toDate ++ "T23:59:59.999Z"` (end of the to-day, UTC); membership is
`lower ≤ time ∧ time ≤ upper` with both bounds inclusive, so an alarm whose
open time equals either bound exactly is counted; for a sample day the upper
suffix denotes exactly the day's start plus 86399999 milliseconds. -/
theorem report_window_bounds (store : List Resident) (fd td : String) (f t : Int)
    (n l : Option String) (r : Resident) (a : Alarm)
    (hf : parseRfc3339 (fd ++ "T00:00:00Z") = some f)
    (ht : parseRfc3339 (td ++ "T23:59:59.999Z") = some t)
    (ha : a ∈ r.alarms) :
    runReport store fd td n l = some (reportRows store f t n l) ∧
    (a ∈ filteredAlarms f t r ↔ a ∈ r.alarms ∧ f ≤ a.time ∧ a.time ≤ t) ∧
    (a.time = f → f ≤ t → a ∈ filteredAlarms f t r) ∧
    (a.time = t → f ≤ t → a ∈ filteredAlarms f t r) ∧
    parseRfc3339 ("2024-03-10" ++ "T00:00:00Z") = some 1710028800000 ∧
    parseRfc3339 ("2024-03-10" ++ "T23:59:59.999Z") = some (1710028800000 + 86399999) := by
  have hmem : a ∈ filteredAlarms f t r ↔ a ∈ r.alarms ∧ f ≤ a.time ∧ a.time ≤ t := by
    unfold filteredAlarms
    rw [List.mem_filter]
    simp [inWindow]
  refine ⟨?_, hmem, ?_, ?_, by decide, by decide⟩
  · unfold runReport
    rw [hf, ht]
  · intro hat hft
    exact hmem.mpr ⟨ha, by omega, by omega⟩
  · intro hat hft
    exact hmem.mpr ⟨ha, by omega, by omega⟩

/-- Alarm opened exactly at the start bound of the 2024-03-10 window. -/
def boundAlarm : Alarm := ⟨1710028800000, 60, "edge"⟩

/-- Resident holding only the bound alarm. -/
def boundResident : Resident :=
  { name := "Bea", birth := 0, location := "RoomB", resident_since := 0,
    alarms := [boundAlarm], active_alarms := [] }

/-- Witness for C6 on the one-day window 2024-03-10: the alarm opened exactly
at the lower bound is counted. -/
theorem report_window_bounds_witness :
    boundAlarm ∈ filteredAlarms 1710028800000 1710115199999 boundResident :=
  ((report_window_bounds [boundResident] "2024-03-10" "2024-03-10"
      1710028800000 1710115199999 none none boundResident boundAlarm
      (by decide) (by decide) (by decide)).2.2.1) (by decide) (by decide)

/-! ### Claim C7 -/

/-- The `$min` of a list is null exactly on the empty list. -/
theorem listMinQ_eq_none (l : List Int) : listMinQ l = none ↔ l = [] := by
  cases l with
  | nil => simp [listMinQ]
  | cons x xs =>
      unfold listMinQ
      cases listMinQ xs <;> simp

/-- The `$max` of a list is null exactly on the empty list. -/
theorem listMaxQ_eq_none (l : List Int) : listMaxQ l = none ↔ l = [] := by
  cases l with
  | nil => simp [listMaxQ]
  | cons x xs =>
      unfold listMaxQ
      cases listMaxQ xs <;> simp

/-- A computed `$min` value is an attained lower bound of the list. -/
theorem listMinQ_spec (l : List Int) (m : Int) (h : listMinQ l = some m) :
    m ∈ l ∧ ∀ x ∈ l, m ≤ x := by
  induction l generalizing m with
  | nil => exact absurd h (by simp [listMinQ])
  | cons x xs ih =>
      unfold listMinQ at h
      cases hx : listMinQ xs with
      | none =>
          have hnil : xs = [] := (listMinQ_eq_none xs).mp hx
          rw [hx] at h
          simp only [Option.some.injEq] at h
          subst h
          subst hnil
          exact ⟨by simp, by simp⟩
      | some m2 =>
          rw [hx] at h
          simp only [Option.some.injEq] at h
          subst h
          obtain ⟨hmem, hbound⟩ := ih m2 hx
          constructor
          · rcases le_total x m2 with h2 | h2
            · simp [min_eq_left h2]
            · right
              rw [min_eq_right h2]
              exact hmem
          · intro y hy
            rcases List.mem_cons.mp hy with h3 | h3
            · rw [h3]; exact min_le_left x m2
            · exact le_trans (min_le_right x m2) (hbound y h3)

/-- A computed `$max` value is an attained upper bound of the list. -/
theorem listMaxQ_spec (l : List Int) (m : Int) (h : listMaxQ l = some m) :
    m ∈ l ∧ ∀ x ∈ l, x ≤ m := by
  induction l generalizing m with
  | nil => exact absurd h (by simp [listMaxQ])
  | cons x xs ih =>
      unfold listMaxQ at h
      cases hx : listMaxQ xs with
      | none =>
          have hnil : xs = [] := (listMaxQ_eq_none xs).mp hx
          rw [hx] at h
          simp only [Option.some.injEq] at h
          subst h
          subst hnil
          exact ⟨by simp, by simp⟩
      | some m2 =>
          rw [hx] at h
          simp only [Option.some.injEq] at h
          subst h
          obtain ⟨hmem, hbound⟩ := ih m2 hx
          constructor
          · rcases le_total x m2 with h2 | h2
            · right
              rw [max_eq_right h2]
              exact hmem
            · simp [max_eq_left h2]
          · intro y hy
            rcases List.mem_cons.mp hy with h3 | h3
            · rw [h3]; exact le_max_left x m2
            · exact le_trans (hbound y h3) (le_max_right x m2)

/-- The `$avg` of a nonempty list is the cast sum over the length. -/
theorem listAvgQ_ne_nil (l : List Nat) (h : l ≠ []) :
    listAvgQ l = some ((l.sum : ℚ) / (l.length : ℚ)) := by
  cases l with
  | nil => exact absurd rfl h
  | cons n ns => rfl

/-- The concrete three-alarm average: (10 + 20 + 30) / 3 = 20. -/
theorem listAvgQ_demo : listAvgQ [10, 20, 30] = some 20 := by
  rw [listAvgQ_ne_nil [10, 20, 30] (by simp)]
  norm_num [List.sum_cons, List.sum_nil]

/-- C7: the report row counts exactly the in-window historical alarms, its
average is null exactly when that count is zero and otherwise is the mean of
the in-window durations, the min/max fields are attained bounds of the
in-window open times, the active count ignores the date window, and the
concrete three-alarm resident (durations 10, 20, 30) yields count 3,
average 20, min/max the open times of the 10s and 30s alarms. -/
theorem report_row_aggregation (f t : Int) (r : Resident) :
    ((projectRow f t r).alarms_count = r.alarms.countP (fun a => inWindow f t a.time)) ∧
    ((projectRow f t r).alarms_avg_duration = none ↔ (projectRow f t r).alarms_count = 0) ∧
    ((projectRow f t r).active_alarms_count = r.active_alarms.length) ∧
    ((projectRow f t r).alarms_count ≠ 0 →
        (projectRow f t r).alarms_avg_duration =
          some (((((filteredAlarms f t r).map (fun a => a.duration_sec) : List Nat).sum : ℚ)) /
            ((((filteredAlarms f t r).map (fun a => a.duration_sec) : List Nat)).length : ℚ))) ∧
    (∀ m, (projectRow f t r).alarms_min_time = some m →
        m ∈ (filteredAlarms f t r).map (fun a => a.time) ∧
        ∀ x ∈ (filteredAlarms f t r).map (fun a => a.time), m ≤ x) ∧
    (∀ m, (projectRow f t r).alarms_max_time = some m →
        m ∈ (filteredAlarms f t r).map (fun a => a.time) ∧
        ∀ x ∈ (filteredAlarms f t r).map (fun a => a.time), x ≤ m) ∧
    projectRow 0 1000 aggResident =
      { name := "Ann", location := "RoomA", alarms_count := 3,
        alarms_avg_duration := some 20, alarms_min_time := some 100,
        alarms_max_time := some 300, active_alarms_count := 0 } := by
  refine ⟨?_, ?_, rfl, ?_, ?_, ?_, ?_⟩
  · show (filteredAlarms f t r).length = _
    rw [List.countP_eq_length_filter]
    rfl
  · show listAvgQ ((filteredAlarms f t r).map (fun a => a.duration_sec)) = none ↔
      (filteredAlarms f t r).length = 0
    cases hfa : filteredAlarms f t r <;> simp [listAvgQ]
  · intro hne
    show listAvgQ ((filteredAlarms f t r).map (fun a => a.duration_sec)) = _
    refine listAvgQ_ne_nil _ ?_
    intro h0
    apply hne
    show (filteredAlarms f t r).length = 0
    have h1 := congrArg List.length h0
    simpa using h1
  · intro m hm
    exact listMinQ_spec _ m hm
  · intro m hm
    exact listMaxQ_spec _ m hm
  · show ({ name := "Ann",
            location := "RoomA",
            alarms_count := 3,
            alarms_avg_duration := listAvgQ [10, 20, 30],
            alarms_min_time := some 100,
            alarms_max_time := some 300,
            active_alarms_count := 0 } : ReportRow) = _
    rw [listAvgQ_demo]

/-- Witness for C7 on the three-alarm resident: the non-null average and the
attained min and max open times. -/
theorem report_row_aggregation_witness :
    ((projectRow 0 1000 aggResident).alarms_avg_duration =
      some (((((filteredAlarms 0 1000 aggResident).map (fun a => a.duration_sec) : List Nat).sum : ℚ)) /
        ((((filteredAlarms 0 1000 aggResident).map (fun a => a.duration_sec) : List Nat)).length : ℚ))) ∧
    (100 ∈ (filteredAlarms 0 1000 aggResident).map (fun a => a.time) ∧
      ∀ x ∈ (filteredAlarms 0 1000 aggResident).map (fun a => a.time), (100 : Int) ≤ x) ∧
    (300 ∈ (filteredAlarms 0 1000 aggResident).map (fun a => a.time) ∧
      ∀ x ∈ (filteredAlarms 0 1000 aggResident).map (fun a => a.time), x ≤ (300 : Int)) :=
  ⟨(report_row_aggregation 0 1000 aggResident).2.2.2.1 (by decide),
   (report_row_aggregation 0 1000 aggResident).2.2.2.2.1 100 (by decide),
   (report_row_aggregation 0 1000 aggResident).2.2.2.2.2.1 300 (by decide)⟩

/-! ### Claim C8 -/

/-- Specification of the single-document update against a key occurring at
most once: the key count is preserved, the first (hence only) match is
rewritten by `upd`, and every matching document of the result is the image of
a matching document of the input. -/
theorem updateFirstByKey_spec (nm : String) (birth : Int) (upd : Resident → Resident)
    (hk : ∀ x, residentKey nm birth (upd x) = residentKey nm birth x)
    (store : List Resident) (huniq : store.countP (residentKey nm birth) ≤ 1) :
    ((updateFirstByKey nm birth upd store).countP (residentKey nm birth) =
      store.countP (residentKey nm birth)) ∧
    (∀ r ∈ store, residentKey nm birth r = true →
        upd r ∈ updateFirstByKey nm birth upd store) ∧
    (∀ r ∈ updateFirstByKey nm birth upd store, residentKey nm birth r = true →
        ∃ x ∈ store, residentKey nm birth x = true ∧ r = upd x) := by
  induction store with
  | nil => exact ⟨rfl, by simp, by simp [updateFirstByKey]⟩
  | cons y ys ih =>
      by_cases hy : residentKey nm birth y
      · have hys : ys.countP (residentKey nm birth) = 0 := by
          have h1 : (y :: ys).countP (residentKey nm birth) =
              ys.countP (residentKey nm birth) + 1 := by
            rw [List.countP_cons]
            simp [hy]
          omega
        have hnone : ∀ x ∈ ys, residentKey nm birth x = false := by
          intro x hx
          have h2 := List.countP_eq_zero.mp hys x hx
          simpa using h2
        have hupd : updateFirstByKey nm birth upd (y :: ys) = upd y :: ys := by
          unfold updateFirstByKey
          rw [if_pos hy]
        refine ⟨?_, ?_, ?_⟩
        · rw [hupd, List.countP_cons, List.countP_cons, hk y]
        · intro r hr hkey
          rcases List.mem_cons.mp hr with h3 | h3
          · rw [hupd, h3]
            exact List.mem_cons_self _ _
          · exact absurd hkey (by simp [hnone r h3])
        · intro r hr hkey
          rw [hupd] at hr
          rcases List.mem_cons.mp hr with h3 | h3
          · exact ⟨y, List.mem_cons_self _ _, hy, h3⟩
          · exact absurd hkey (by simp [hnone r h3])
      · have hy2 : residentKey nm birth y = false := by simpa using hy
        have huniq2 : ys.countP (residentKey nm birth) ≤ 1 := by
          have h1 : (y :: ys).countP (residentKey nm birth) =
              ys.countP (residentKey nm birth) := by
            rw [List.countP_cons]
            simp [hy2]
          omega
        obtain ⟨ih1, ih2, ih3⟩ := ih huniq2
        have hupd : updateFirstByKey nm birth upd (y :: ys) =
            y :: updateFirstByKey nm birth upd ys := by
          conv_lhs => unfold updateFirstByKey
          rw [if_neg hy]
        refine ⟨?_, ?_, ?_⟩
        · rw [hupd, List.countP_cons, List.countP_cons, ih1]
        · intro r hr hkey
          rcases List.mem_cons.mp hr with h3 | h3
          · exact absurd hkey (by simp [h3, hy2])
          · rw [hupd]
            exact List.mem_cons_of_mem _ (ih2 r h3 hkey)
        · intro r hr hkey
          rw [hupd] at hr
          rcases List.mem_cons.mp hr with h3 | h3
          · exact absurd hkey (by simp [h3, hy2])
          · obtain ⟨x, hx1, hx2, hx3⟩ := ih3 r h3 hkey
            exact ⟨x, List.mem_cons_of_mem _ hx1, hx2, hx3⟩

/-- C8: under the unique-index invariant (at most one document per key),
insert-or-update leaves exactly one document with the payload's key, whose
location and residency start equal the payload's; the fallback update fires
exactly when the key already existed; the update rewrites only location and
residency start (identity and alarm lists preserved); and a write failure
other than duplicate-key is reported with the store untouched. -/
theorem insertOrUpdate_semantics (store : List Resident) (p : Resident)
    (huniq : store.countP (residentKey p.name p.birth) ≤ 1) :
    ((insertOrUpdate store p).2.countP (residentKey p.name p.birth) = 1) ∧
    (∀ r ∈ (insertOrUpdate store p).2, residentKey p.name p.birth r = true →
        r.location = p.location ∧ r.resident_since = p.resident_since) ∧
    ((insertOrUpdate store p).1 = .updated ↔
        ∃ r ∈ store, residentKey p.name p.birth r = true) ∧
    ((insertOrUpdate store p).1 = .updated →
        ∀ r ∈ store, residentKey p.name p.birth r = true →
          applyUpdateData p r ∈ (insertOrUpdate store p).2 ∧
          (applyUpdateData p r).alarms = r.alarms ∧
          (applyUpdateData p r).active_alarms = r.active_alarms ∧
          (applyUpdateData p r).name = r.name ∧
          (applyUpdateData p r).birth = r.birth) ∧
    (∀ msg, insertOrUpdateFrom (.error (.other msg)) store p =
        (.failed (.other msg), store)) := by
  have hkself : residentKey p.name p.birth p = true := by
    unfold residentKey
    simp
  have hkupd : ∀ x, residentKey p.name p.birth (applyUpdateData p x) =
      residentKey p.name p.birth x := by
    intro x
    unfold residentKey applyUpdateData
    rfl
  by_cases hdup : store.any (residentKey p.name p.birth)
  · have hio : insertOrUpdate store p =
        (.updated, updateFirstByKey p.name p.birth (applyUpdateData p) store) := by
      unfold insertOrUpdate insertOne
      rw [if_pos hdup]
      rfl
    obtain ⟨hcount, hfwd, hback⟩ :=
      updateFirstByKey_spec p.name p.birth (applyUpdateData p) hkupd store huniq
    have hpos : 0 < store.countP (residentKey p.name p.birth) :=
      List.countP_pos_iff.mpr (by simpa using List.any_eq_true.mp hdup)
    refine ⟨?_, ?_, ?_, ?_, fun msg => rfl⟩
    · rw [hio]
      show (updateFirstByKey p.name p.birth (applyUpdateData p) store).countP _ = 1
      omega
    · intro r hr hkey
      rw [hio] at hr
      obtain ⟨x, -, -, hx3⟩ := hback r hr hkey
      subst hx3
      exact ⟨rfl, rfl⟩
    · rw [hio]
      simpa using List.any_eq_true.mp hdup
    · intro _hu r hr hkey
      rw [hio]
      exact ⟨hfwd r hr hkey, rfl, rfl, rfl, rfl⟩
  · have hio : insertOrUpdate store p = (.inserted, store ++ [p]) := by
      unfold insertOrUpdate insertOne
      rw [if_neg hdup]
      rfl
    have hzero : store.countP (residentKey p.name p.birth) = 0 := by
      rw [List.countP_eq_zero]
      intro x hx
      have h2 := List.any_eq_false.mp (by simpa using hdup) x hx
      simp [h2]
    have hnone : ∀ x ∈ store, residentKey p.name p.birth x = false := by
      intro x hx
      have h2 := List.countP_eq_zero.mp hzero x hx
      simpa using h2
    refine ⟨?_, ?_, ?_, ?_, fun msg => rfl⟩
    · rw [hio]
      show (store ++ [p]).countP _ = 1
      rw [List.countP_append, hzero, List.countP_cons]
      simp [hkself]
    · intro r hr hkey
      rw [hio] at hr
      rcases List.mem_append.mp hr with h3 | h3
      · exact absurd hkey (by simp [hnone r h3])
      · have h4 : r = p := by simpa using h3
        subst h4
        exact ⟨rfl, rfl⟩
    · rw [hio]
      constructor
      · intro h3
        exact absurd h3 (by simp)
      · rintro ⟨r, hr, hkey⟩
        exact absurd hkey (by simp [hnone r hr])
    · intro h3
      rw [hio] at h3
      exact absurd h3 (by simp)

/-- First demo payload: John in Room 101 since 2020. -/
def john101 : Resident := Resident.new 0 "John" "1990-01-01" "Room 101" "2020-01-01"

/-- Second demo payload: same key as `john101`, Room 102 since 2021. -/
def john102 : Resident := Resident.new 0 "John" "1990-01-01" "Room 102" "2021-01-01"

/-- Witness for C8: updating the single John document yields exactly one
document with that key, and a non-duplicate write failure leaves the store
untouched. -/
theorem insertOrUpdate_semantics_witness :
    ((insertOrUpdate [john101] john102).2.countP
        (residentKey john102.name john102.birth) = 1) ∧
    (∀ msg, insertOrUpdateFrom (.error (.other msg)) [john101] john102 =
        (.failed (.other msg), [john101])) :=
  ⟨(insertOrUpdate_semantics [john101] john102 (by decide)).1,
   (insertOrUpdate_semantics [john101] john102 (by decide)).2.2.2.2⟩

/-! ### Claim C9 -/

/-- C9: when the first matching resident's active list holds one or more
entries with the requested open time, a single close removes every active
entry with that time (`$pull` matches them all) but appends exactly one
history entry, whose message and time come from the first matching entry;
the other same-time entries are in neither resulting list. -/
theorem closeAlarm_shared_open_time (pre post : List Resident) (r : Resident)
    (nm : String) (birth st now : Int) (dur? : Option Nat) (a1 : ActiveAlarm)
    (rest : List ActiveAlarm)
    (hpre : ∀ x ∈ pre, residentKey nm birth x = false)
    (hkey : residentKey nm birth r = true)
    (hfilter : r.active_alarms.filter (fun a => a.time == st) = a1 :: rest) :
    closeAlarm (pre ++ r :: post) nm birth st dur? now =
      (.cleared a1.time a1.message (dur?.getD ((now - a1.time).toNat / 1000)),
       pre ++
         { r with
             active_alarms := r.active_alarms.filter (fun x => !(x.time == a1.time)),
             alarms := r.alarms ++
               [⟨a1.time, dur?.getD ((now - a1.time).toNat / 1000), a1.message⟩] } :: post) ∧
    a1.time = st ∧
    (∀ x ∈ r.active_alarms.filter (fun x => !(x.time == a1.time)),
        (x.time == st) = false) ∧
    (r.alarms ++
        [(⟨a1.time, dur?.getD ((now - a1.time).toNat / 1000), a1.message⟩ : Alarm)]).length =
      r.alarms.length + 1 := by
  have ha1 : a1 ∈ r.active_alarms.filter (fun a => a.time == st) := by
    rw [hfilter]
    exact List.mem_cons_self _ _
  have hat : a1.time = st := by
    simpa using (List.mem_filter.mp ha1).2
  have hres : closeAlarmResident r st dur? now =
      some ({ r with
                active_alarms := r.active_alarms.filter (fun x => !(x.time == a1.time)),
                alarms := r.alarms ++
                  [⟨a1.time, dur?.getD ((now - a1.time).toNat / 1000), a1.message⟩] },
            a1.time, a1.message, dur?.getD ((now - a1.time).toNat / 1000)) := by
    unfold closeAlarmResident
    rw [hfilter]
  refine ⟨?_, hat, ?_, by simp⟩
  · unfold closeAlarm
    rw [closeAlarmGo_skip nm birth st now dur? pre (r :: post) hpre]
    have hgo : closeAlarmGo nm birth st dur? now (r :: post) =
        (.cleared a1.time a1.message (dur?.getD ((now - a1.time).toNat / 1000)),
         { r with
             active_alarms := r.active_alarms.filter (fun x => !(x.time == a1.time)),
             alarms := r.alarms ++
               [⟨a1.time, dur?.getD ((now - a1.time).toNat / 1000), a1.message⟩] } :: post) := by
      conv_lhs => unfold closeAlarmGo
      rw [if_pos hkey, hres]
    rw [hgo]
  · intro x hx
    have h2 := (List.mem_filter.mp hx).2
    rw [← hat]
    simpa using h2

/-- One-resident store around `dupResident`. -/
def dupStore : List Resident := [dupResident]

/-- Witness for C9: closing at open time 500 on the resident with two alarms
at 500 removes both, keeps the unrelated alarm at 900, and appends one
history entry carrying the first matching message. -/
theorem closeAlarm_shared_open_time_witness :
    closeAlarm dupStore "Ann" 0 500 (some 7) 0 =
      (.cleared 500 "first" 7,
       [{ name := "Ann", birth := 0, location := "RoomA", resident_since := 0,
          alarms := [⟨500, 7, "first"⟩], active_alarms := [⟨900, "other"⟩] }]) ∧
    (500 : Int) = 500 ∧
    (∀ x ∈ dupResident.active_alarms.filter (fun x => !(x.time == (500 : Int))),
        (x.time == (500 : Int)) = false) ∧
    (dupResident.alarms ++ [(⟨500, 7, "first"⟩ : Alarm)]).length =
      dupResident.alarms.length + 1 :=
  closeAlarm_shared_open_time [] [] dupResident "Ann" 0 500 0 (some 7)
    ⟨500, "first"⟩ [⟨500, "second"⟩] (by simp) (by decide) (by decide)

/-! ### Claim C10 -/

/-- C10: the pattern filters of the report are case-insensitive — matching
depends only on the lowercased pattern and subject, the sample pattern
"rooma" matches location "RoomA", the one-pattern filters combine the regex
condition with the inclusion condition, and the case-different patterns
"rooma" / "ANN" select the resident named "Ann" in "RoomA" end to end. -/
theorem pattern_filters_case_insensitive (p1 p2 s1 s2 lp : String)
    (r : Resident) (fa : List Alarm)
    (hp : lowerStr p1 = lowerStr p2) (hs : lowerStr s1 = lowerStr s2) :
    regexMatchI p1 s1 = regexMatchI p2 s2 ∧
    matchDoc (queryFilter none (some lp)) r fa =
      (regexMatchI lp r.location && (!r.active_alarms.isEmpty || decide (fa.length > 0))) ∧
    matchDoc (queryFilter (some lp) none) r fa =
      (regexMatchI lp r.name && (!r.active_alarms.isEmpty || decide (fa.length > 0))) ∧
    regexMatchI "rooma" "RoomA" = true ∧
    (runReport [annResident] "2024-01-01" "2024-12-31" none (some "rooma")).map
        (fun rows => rows.map (fun row => row.location)) = some ["RoomA"] ∧
    (runReport [annResident] "2024-01-01" "2024-12-31" (some "ANN") none).map
        (fun rows => rows.map (fun row => row.name)) = some ["Ann"] := by
  refine ⟨?_, ?_, ?_, by decide, by decide, by decide⟩
  · unfold regexMatchI
    rw [hp, hs]
  · show (regexMatchI lp r.location &&
        ((!r.active_alarms.isEmpty || decide (fa.length > 0)) && true)) = _
    rw [Bool.and_true]
  · show (regexMatchI lp r.name &&
        ((!r.active_alarms.isEmpty || decide (fa.length > 0)) && true)) = _
    rw [Bool.and_true]

/-- Witness for C10 at case-different patterns and subjects. -/
theorem pattern_filters_case_insensitive_witness :
    regexMatchI "ANN" "ann bell" = regexMatchI "ann" "ANN BELL" ∧
    (runReport [annResident] "2024-01-01" "2024-12-31" none (some "rooma")).map
        (fun rows => rows.map (fun row => row.location)) = some ["RoomA"] :=
  ⟨(pattern_filters_case_insensitive "ANN" "ann" "ann bell" "ANN BELL" "x" annResident []
      (by decide) (by decide)).1,
   (pattern_filters_case_insensitive "ANN" "ann" "ann bell" "ANN BELL" "x" annResident []
      (by decide) (by decide)).2.2.2.2.1⟩

end MongoTest
